import Mathlib

/-!
Shallow embedding of `uoilib/container.py` (LXC container utilities) and of the
`netutils` subnet-allocation collaborators it calls, together with proofs of
the specified properties.  IPv4 addresses are modelled as natural numbers below
`2 ^ 32`; subnets as base address plus prefix length.
-/

namespace Uoilib

/-- Number of addresses in an IPv4 subnet of prefix length `p`. -/
def subnetSize (p : Nat) : Nat := 2 ^ (32 - p)

/-- An IPv4 network, mirroring the python `ipaddress.IPv4Network` values the
code manipulates: base address (as a 32-bit number) plus prefix length. -/
structure Subnet where
  base : Nat
  plen : Nat
deriving DecidableEq, Repr

/-- `a` is one of the addresses of subnet `s` (network and broadcast included). -/
def Subnet.memAddr (s : Subnet) (a : Nat) : Prop :=
  s.base ≤ a ∧ a < s.base + subnetSize s.plen

instance (s : Subnet) (a : Nat) : Decidable (s.memAddr a) :=
  inferInstanceAs (Decidable (_ ∧ _))

/-- The address range of `s` is contained in the address range of `t`. -/
def Subnet.subsetOf (s t : Subnet) : Prop :=
  t.base ≤ s.base ∧ s.base + subnetSize s.plen ≤ t.base + subnetSize t.plen

instance (s t : Subnet) : Decidable (s.subsetOf t) :=
  inferInstanceAs (Decidable (_ ∧ _))

/-- A subnet is aligned when its base address is a multiple of its size
(the CIDR well-formedness condition `IPv4Network` enforces). -/
def Subnet.aligned (s : Subnet) : Prop := subnetSize s.plen ∣ s.base

/-- Boolean test that the address ranges of two subnets intersect. -/
def overlapsB (s t : Subnet) : Bool :=
  decide (max s.base t.base <
    min (s.base + subnetSize s.plen) (t.base + subnetSize t.plen))

theorem subnetSize_pos (p : Nat) : 0 < subnetSize p := Nat.pos_pow_of_pos _ (by omega)

theorem overlapsB_iff (s t : Subnet) :
    overlapsB s t = true ↔ ∃ a, s.memAddr a ∧ t.memAddr a := by
  unfold overlapsB Subnet.memAddr
  rw [decide_eq_true_iff]
  constructor
  · intro h
    exact ⟨max s.base t.base, ⟨le_max_left _ _, lt_of_lt_of_le h (min_le_left _ _)⟩,
      ⟨le_max_right _ _, lt_of_lt_of_le h (min_le_right _ _)⟩⟩
  · rintro ⟨a, ⟨h1, h2⟩, ⟨h3, h4⟩⟩
    have : max s.base t.base ≤ a := max_le h1 h3
    have : a < min (s.base + subnetSize s.plen) (t.base + subnetSize t.plen) :=
      lt_min h2 h4
    omega

namespace netutils

/-- Modelled from the spec: the Subnet Allocator's candidate enumeration.
`netutils.get_unique_lxc_network` is not part of the provided sources; the spec
describes it as enumerating candidate subnets of a fixed prefix length within
the reserved space in a deterministic order.  Candidate `i` is the `i`-th
aligned `plen`-subnet of `space`, in increasing address order. -/
def candidates (space : Subnet) (plen : Nat) : List Subnet :=
  (List.range (2 ^ (plen - space.plen))).map
    (fun i => Subnet.mk (space.base + i * subnetSize plen) plen)

/-- Modelled from the spec: `netutils.get_unique_lxc_network` (missing from the
provided sources) selects the first candidate subnet whose address range does
not intersect any used subnet, and signals exhaustion (`none`) when every
candidate collides. -/
def get_unique_lxc_network (used : List Subnet) (space : Subnet) (plen : Nat) :
    Option Subnet :=
  (candidates space plen).find? (fun c => used.all (fun u => ! overlapsB c u))

/-- First usable host address of a subnet: the address right after the network
address (`nw[1]` in python). -/
def firstUsable (nw : Subnet) : Nat := nw.base + 1

/-- Last usable host address of a subnet: the address right before the
broadcast address (`nw[-2]` in python). -/
def lastUsable (nw : Subnet) : Nat := nw.base + subnetSize nw.plen - 2

/-- One step of the scan for the least excluded address at or after `a`. -/
def stopFold (a acc e : Nat) : Nat := if a ≤ e ∧ e < acc then e else acc

/-- The first point at or after `a` where a contiguous run of non-excluded
addresses must stop: the least excluded address in `[a, last]`, or `last + 1`
when none is excluded there. -/
def stopPoint (excl : List Nat) (last a : Nat) : Nat :=
  excl.foldl (stopFold a) (last + 1)

/-- Length of the contiguous run of non-excluded addresses starting at `a` and
staying at or below `last`. -/
def runLen (excl : List Nat) (last a : Nat) : Nat :=
  stopPoint excl last a - a

/-- The usable host addresses of a subnet, in increasing order: the possible
low ends of a dynamic range. -/
def startsList (nw : Subnet) : List Nat :=
  (List.range (lastUsable nw + 1 - firstUsable nw)).map
    (fun i => firstUsable nw + i)

/-- Modelled from the spec: `netutils.ip_range_max` (missing from the provided
sources) computes, for a subnet and a set of excluded addresses, the largest
contiguous low/high pair of usable host addresses containing no excluded
address (earliest such run on ties), or `none` when every usable address is
excluded. -/
def ip_range_max (nw : Subnet) (excl : List Nat) : Option (Nat × Nat) :=
  match ((startsList nw).filter
      (fun a => decide (0 < runLen excl (lastUsable nw) a))).argmax
      (fun a => runLen excl (lastUsable nw) a) with
  | none => none
  | some a => some (a, a + runLen excl (lastUsable nw) a - 1)

end netutils

namespace container

/-- Result of `lxc.Container.get_ips()`: either a list of addresses, or the
shelled-out `lxc-info` call raised `subprocess.CalledProcessError`. -/
inductive GetIpsResult where
  | ips (l : List String)
  | calledProcessError
deriving DecidableEq, Repr

/-- Outcome of `Container.ip()`. -/
inductive IpResult where
  | ok (a : String)
  | noContainerIPExc
deriving DecidableEq, Repr

/-- `Container.ip` (container.py lines 54-64): return the first address from
`get_ips()`; raise `NoContainerIPException` when zero addresses are reported
or when the lookup raises `CalledProcessError`. -/
def ip : GetIpsResult → IpResult
  | .calledProcessError => .noContainerIPExc
  | .ips ips => if ips.length = 0 then .noContainerIPExc else .ok ips.headI

/-- A `subprocess.Popen` object as `run` sees it right after spawning:
`returncode` is `none` until the process has been waited on or polled;
only the output streams are carried. -/
structure Popen where
  returncode : Option Int
  stdout : String
  stderr : String
deriving DecidableEq, Repr

/-- `subprocess.Popen(cmd, stdout=PIPE, stderr=PIPE)`: returns immediately,
with `returncode` still `none` — no wait has happened — even though the
process will eventually exit with status `exitStatus`. -/
def popen (exitStatus : Int) (out err : String) : Popen :=
  { returncode := none, stdout := out, stderr := err }

/-- Python attribute lookup on a `Popen` object: the attributes the object
actually has. Accessing any other name (such as the misspelled `stdeer`)
raises `AttributeError`. -/
def Popen.attrLookup (p : Popen) : String → Option String
  | "stdout" => some p.stdout
  | "stderr" => some p.stderr
  | _ => none

/-- Outcome of `Container.run`. -/
inductive RunResult where
  | ok (stdoutStream : String)
  | attributeError
  | containerRunExc (msg : String) (returncode : Option Int)
  | noContainerIPExc
deriving DecidableEq, Repr

/-- `Container.run` (container.py lines 66-87): spawn `cmd`, then immediately
branch on `subproc.returncode` (no wait).  The failure branch first formats
`subproc.stdeer.strip()` into a debug message — `stdeer` is a misspelling of
`stderr`, so this lookup fails — and otherwise would construct
`ContainerRunException` whose message formats `self.ip()`. -/
def run (name : String) (cmd : String) (exitStatus : Int) (out err : String)
    (ipsResult : GetIpsResult) : RunResult :=
  let subproc := popen exitStatus out err
  if subproc.returncode = some 0 then .ok subproc.stdout
  else
    match subproc.attrLookup "stdeer" with
    | none => .attributeError
    | some _ =>
      match ip ipsResult with
      | .noContainerIPExc => .noContainerIPExc
      | .ok addr =>
        .containerRunExc
          ("Problem running " ++ cmd ++ " in container " ++ name ++ ":" ++ addr)
          subproc.returncode

/-- The template name and argument tuple handed to `lxc.Container.create`. -/
structure CreateCall where
  template : String
  args : List String
deriving DecidableEq, Repr

/-- Python truthiness of an `os.getenv` result: `None` and the empty string
are falsy, any other string is truthy. -/
def getenvTruthy : Option String → Bool
  | none => false
  | some s => s != ""

/-- `Container.create` (container.py lines 89-103), the call it issues:
`flushflag` starts as `-F` and is cleared when `os.getenv` returns a truthy
value for `USE_LXC_IMAGE_CACHE`; the template is `ubuntu-cloud` and the args
are `(flushflag, "-u", userdata)`. -/
def createCall (env : Option String) (userdata : String) : CreateCall :=
  let flushflag := if getenvTruthy env then "" else "-F"
  { template := "ubuntu-cloud", args := [flushflag, "-u", userdata] }

/-- `Container.create`: issues the call and returns the runtime's result
verbatim. -/
def create (env : Option String) (userdata : String)
    (runtimeCreate : CreateCall → Bool) : Bool :=
  runtimeCreate (createCall env userdata)

/-- `Container.destroy` (container.py lines 120-125): the sequence of calls
issued to the underlying runtime, as a function of the reported state. -/
def destroy (state : String) : List String :=
  (if state = "RUNNING" then ["stop"] else []) ++ ["destroy"]

/-- The host command `set_static_route` builds (container.py line 134). -/
def routeCmd (lxc_net addr : String) : String :=
  "ip route add " ++ lxc_net ++ " via " ++ addr ++ " dev lxcbr0"

/-- Outcome of `Container.set_static_route`. -/
inductive RouteResult where
  | ok (a : String)
  | routeExc (msg : String)
  | noContainerIPExc
deriving DecidableEq, Repr

/-- `Container.set_static_route` (container.py lines 127-138): the initial
`log.info` formats `self.ip()` (which can raise); then
`utils.get_command_output` runs the `ip route add ... dev lxcbr0` command;
non-zero status raises an `Exception` carrying the command output; finally
`self.ip()` is returned.  `cmdOutput` models `utils.get_command_output`,
giving status and output for a command string. -/
def set_static_route (lxc_net : String) (ipsResult : GetIpsResult)
    (cmdOutput : String → Int × String) : RouteResult :=
  match ip ipsResult with
  | .noContainerIPExc => .noContainerIPExc
  | .ok addr =>
    let result := cmdOutput (routeCmd lxc_net addr)
    if result.1 ≠ 0 then
      .routeExc ("Could not add static route for " ++ lxc_net ++
        " network: " ++ result.2)
    else
      match ip ipsResult with
      | .noContainerIPExc => .noContainerIPExc
      | .ok a => .ok a

/-- The leading-separator test `b.startswith('/')` of `os.path.join`. -/
def startsWithSlash (s : String) : Bool :=
  match s.data with
  | [] => false
  | c :: _ => c == '/'

/-- The trailing-separator test `path[-1:] == '/'` of `os.path.join`. -/
def endsWithSlash (s : String) : Bool :=
  match s.data.getLast? with
  | none => false
  | some c => c == '/'

/-- `os.path.join(a, b)`, two-argument form: an absolute second component
replaces the first; otherwise a separator is inserted unless the first part is
empty or already ends with one. -/
def osPathJoin (a b : String) : String :=
  if startsWithSlash b then b
  else if a = "" ∨ endsWithSlash a then a ++ b
  else a ++ "/" ++ b

/-- `Container.abspath` (container.py lines 50-52). -/
def abspath (name : String) : String := osPathJoin "/var/lib/lxc" name

/-- The container path recomputed inside `write_lxc_net_config`
(container.py line 145). -/
def writeConfigContainerPath (name : String) : String :=
  osPathJoin "/var/lib/lxc" name

/-- Dotted-quad rendering of a 32-bit address. -/
def ipToString (n : Nat) : String :=
  toString (n / 2 ^ 24 % 256) ++ "." ++ toString (n / 2 ^ 16 % 256) ++ "." ++
    toString (n / 2 ^ 8 % 256) ++ "." ++ toString (n % 256)

/-- The netmask of a prefix length, as `with_netmask` renders it after the
trailing `/` split. -/
def netmaskString (p : Nat) : String := ipToString (2 ^ 32 - subnetSize p)

/-- CIDR rendering of a subnet. -/
def subnetString (s : Subnet) : String :=
  ipToString s.base ++ "/" ++ toString s.plen

/-- The substitution variables handed to the `lxc-net` template. -/
structure RenderParts where
  addr : String
  netmask : String
  network : String
  dhcp_range : String
deriving DecidableEq, Repr

/-- What `write_lxc_net_config` produces: the file written (path and
contents) and the subnet it returns. -/
structure LxcNetWrite where
  filename : String
  contents : String
  network : Subnet
deriving DecidableEq, Repr

/-- `Container.write_lxc_net_config` (container.py lines 140-162),
parameterized by the allocator's inputs (the used-subnet set, reserved space
and step prefix length — the spec treats the collision source as an injected
collaborator) and by the rendering collaborator `render`
(`utils.load_template('lxc-net').render`).  `none` models the allocator
signalling exhaustion. -/
def write_lxc_net_config (name : String) (used : List Subnet) (space : Subnet)
    (plen : Nat) (render : RenderParts → String) : Option LxcNetWrite :=
  let container_path := osPathJoin "/var/lib/lxc" name
  let lxc_net_container_filename :=
    osPathJoin container_path "rootfs/etc/default/lxc-net"
  match netutils.get_unique_lxc_network used space plen with
  | none => none
  | some nw =>
    let addr := nw.base + 1
    let netmask := netmaskString nw.plen
    match netutils.ip_range_max nw [addr] with
    | none => none
    | some (net_low, net_high) =>
      let dhcp_range := ipToString net_low ++ "," ++ ipToString net_high
      some { filename := lxc_net_container_filename,
             contents := render { addr := ipToString addr, netmask := netmask,
                                  network := subnetString nw,
                                  dhcp_range := dhcp_range },
             network := nw }

end container

end Uoilib

namespace Uoilib

/-- Claim C4: `Container.ip` returns the first address reported by the
runtime's `get_ips()` when at least one address is reported, and raises
`NoContainerIPException` — not a generic error — exactly when zero addresses
are reported or the query raises `CalledProcessError`. -/
theorem ip_spec (r : container.GetIpsResult) :
    (∀ a l, r = .ips (a :: l) → container.ip r = .ok a) ∧
    (container.ip r = .noContainerIPExc ↔
      r = .ips [] ∨ r = .calledProcessError) := by
  rcases r with l | _
  · rcases l with _ | ⟨a, l⟩ <;> simp [container.ip]
  · simp [container.ip]

/-- Witness for C4 at a concrete input: one reported address is returned. -/
theorem ip_spec_witness :
    container.ip (.ips ["10.0.3.5", "10.0.3.6"]) = .ok "10.0.3.5" :=
  (ip_spec (.ips ["10.0.3.5", "10.0.3.6"])).1 "10.0.3.5" ["10.0.3.6"] rfl

/-- Claim C5: `Container.destroy` issues a stop call to the runtime iff the
container's reported state is "RUNNING", and issues the destroy call in every
case; an already-stopped container gets no redundant stop call. -/
theorem destroy_spec (state : String) :
    ("stop" ∈ container.destroy state ↔ state = "RUNNING") ∧
    "destroy" ∈ container.destroy state ∧
    (state = "RUNNING" → container.destroy state = ["stop", "destroy"]) ∧
    (state ≠ "RUNNING" → container.destroy state = ["destroy"]) := by
  unfold container.destroy
  by_cases h : state = "RUNNING" <;> simp [h]

/-- Witness for C5 at a concrete input: destroying a stopped container issues
only the destroy call. -/
theorem destroy_spec_witness :
    container.destroy "STOPPED" = ["destroy"] :=
  (destroy_spec "STOPPED").2.2.2 (by decide)

/-- Claim C10: `Container.abspath` is `os.path.join('/var/lib/lxc', name)`,
and `write_lxc_net_config` derives its container path by the same
deterministic function of the name, so the two always agree. -/
theorem abspath_agrees (name : String) :
    container.abspath name = container.osPathJoin "/var/lib/lxc" name ∧
    container.writeConfigContainerPath name = container.abspath name :=
  ⟨rfl, rfl⟩

/-- Claim C3 (code bug): `Container.run` inspects `subproc.returncode`
immediately after `Popen`, without waiting, so `returncode` is still `None`
and even a command that exits with status 0 and produces stdout is sent to
the failure branch, where the misspelled `subproc.stdeer` lookup raises
`AttributeError`; the stdout stream is never returned. -/
theorem run_zero_exit_misbehaves :
    container.run "uoi-bootstrap" "true" 0 "hello" "" (.ips ["10.0.3.5"]) =
      .attributeError ∧
    container.run "uoi-bootstrap" "true" 0 "hello" "" (.ips ["10.0.3.5"]) ≠
      .ok "hello" := by
  exact ⟨rfl, by simp [container.run, container.popen, container.Popen.attrLookup]⟩

/-- Claim C9 counterexample: for a container reporting zero addresses and a
failing command, `run` raises `AttributeError` (the misspelled `stdeer`
attribute is evaluated before the exception that would re-query the IP), not
`NoContainerIPException`. -/
theorem run_zero_ips_attribute_error :
    container.run "uoi-bootstrap" "ls" 1 "" "boom" (.ips []) =
      .attributeError ∧
    container.run "uoi-bootstrap" "ls" 1 "" "boom" (.ips []) ≠
      .noContainerIPExc := by
  exact ⟨rfl, by simp [container.run, container.popen, container.Popen.attrLookup]⟩

/-- Claim C9 (amended): `set_static_route` re-queries the container IP while
building its log line and route command, so on a container reporting zero
addresses it raises `NoContainerIPException`, masking the route-failure kind;
`run`'s failure branch instead fails the misspelled `stdeer` attribute lookup
before any IP re-query, raising `AttributeError` for every command outcome. -/
theorem error_masking_spec (name lxc_net cmd out err : String)
    (exitStatus : Int) (cmdOutput : String → Int × String) :
    container.set_static_route lxc_net (.ips []) cmdOutput =
      .noContainerIPExc ∧
    container.run name cmd exitStatus out err (.ips []) = .attributeError :=
  ⟨rfl, rfl⟩

/-- Claim C8 counterexample: `USE_LXC_IMAGE_CACHE` present in the environment
but set to the empty string is falsy for the `os.getenv` test, so the forced
flush flag `-F` is NOT suppressed although the variable is present. -/
theorem create_flush_present_but_empty :
    (some "" : Option String) ≠ none ∧
    (container.createCall (some "") "userdata").args =
      ["-F", "-u", "userdata"] := by
  exact ⟨by simp, rfl⟩

/-- Claim C8 (amended): `Container.create` instantiates from the ubuntu-cloud
template passing the userdata, suppresses the forced flush flag `-F` exactly
when `USE_LXC_IMAGE_CACHE` is present with a non-empty value, and returns the
underlying runtime's create result verbatim. -/
theorem create_spec (env : Option String) (userdata : String)
    (runtimeCreate : container.CreateCall → Bool) :
    (container.createCall env userdata).template = "ubuntu-cloud" ∧
    (container.createCall env userdata).args =
      [(if env ≠ none ∧ env ≠ some "" then "" else "-F"), "-u", userdata] ∧
    container.create env userdata runtimeCreate =
      runtimeCreate (container.createCall env userdata) := by
  refine ⟨rfl, ?_, rfl⟩
  rcases env with _ | s
  · rfl
  · by_cases h : s = "" <;>
      simp [container.createCall, container.getenvTruthy, h]

/-- Claim C7: with the container reporting an address, `set_static_route`
runs the route-installation command for the target network via the container
IP on the fixed bridge interface lxcbr0; it raises an error carrying the
command's output exactly when the command exits non-zero, and otherwise
returns the container IP. -/
theorem set_static_route_spec (lxc_net addr : String) (rest : List String)
    (cmdOutput : String → Int × String) :
    (container.routeCmd lxc_net addr =
      "ip route add " ++ lxc_net ++ " via " ++ addr ++ " dev lxcbr0") ∧
    (∀ st out, cmdOutput (container.routeCmd lxc_net addr) = (st, out) →
      (st ≠ 0 →
        container.set_static_route lxc_net (.ips (addr :: rest)) cmdOutput =
          .routeExc ("Could not add static route for " ++ lxc_net ++
            " network: " ++ out)) ∧
      (st = 0 →
        container.set_static_route lxc_net (.ips (addr :: rest)) cmdOutput =
          .ok addr)) := by
  refine ⟨rfl, fun st out hco => ⟨fun hne => ?_, fun heq => ?_⟩⟩
  · simp [container.set_static_route, container.ip, hco, hne]
  · simp [container.set_static_route, container.ip, hco, heq]

namespace netutils

theorem foldl_stopFold_le_init (a : Nat) (l : List Nat) (init : Nat) :
    l.foldl (stopFold a) init ≤ init := by
  induction l generalizing init with
  | nil => simp
  | cons e tl ih =>
    simp only [List.foldl_cons]
    refine le_trans (ih _) ?_
    unfold stopFold
    split
    · omega
    · omega

theorem foldl_stopFold_le_mem (a : Nat) (l : List Nat) (init e : Nat)
    (ha : a ≤ e) (he : e ∈ l) : l.foldl (stopFold a) init ≤ e := by
  induction l generalizing init with
  | nil => cases he
  | cons x tl ih =>
    simp only [List.foldl_cons]
    rcases List.mem_cons.mp he with rfl | hmem
    · refine le_trans (foldl_stopFold_le_init _ _ _) ?_
      unfold stopFold
      split
      · omega
      · omega
    · exact ih _ hmem

theorem foldl_stopFold_cases (a : Nat) (l : List Nat) (init : Nat) :
    l.foldl (stopFold a) init = init ∨
      (l.foldl (stopFold a) init ∈ l ∧ a ≤ l.foldl (stopFold a) init) := by
  induction l generalizing init with
  | nil => left; rfl
  | cons x tl ih =>
    simp only [List.foldl_cons]
    rcases ih (stopFold a init x) with h | ⟨hmem, hle⟩
    · rw [h]
      unfold stopFold
      split
      · rename_i hx
        right
        exact ⟨List.mem_cons_self _ _, hx.1⟩
      · left; rfl
    · right
      exact ⟨List.mem_cons_of_mem _ hmem, hle⟩

theorem stopPoint_le_succ_last (excl : List Nat) (last a : Nat) :
    stopPoint excl last a ≤ last + 1 :=
  foldl_stopFold_le_init a excl (last + 1)

theorem stopPoint_le_of_mem (excl : List Nat) (last a e : Nat)
    (ha : a ≤ e) (he : e ∈ excl) : stopPoint excl last a ≤ e :=
  foldl_stopFold_le_mem a excl (last + 1) e ha he

theorem stopPoint_cases (excl : List Nat) (last a : Nat) :
    stopPoint excl last a = last + 1 ∨
      (stopPoint excl last a ∈ excl ∧ a ≤ stopPoint excl last a) :=
  foldl_stopFold_cases a excl (last + 1)

theorem not_mem_of_lt_stopPoint (excl : List Nat) (last a x : Nat)
    (h1 : a ≤ x) (h2 : x < stopPoint excl last a) : x ∉ excl := by
  intro hx
  exact absurd (stopPoint_le_of_mem excl last a x h1 hx) (by omega)

theorem runLen_lower_bound (excl : List Nat) (last lo hi : Nat)
    (hhi : hi ≤ last)
    (hfree : ∀ x, lo ≤ x → x ≤ hi → x ∉ excl) :
    hi + 1 - lo ≤ runLen excl last lo := by
  unfold runLen
  rcases stopPoint_cases excl last lo with h | ⟨hmem, hle⟩
  · omega
  · by_cases hcase : stopPoint excl last lo ≤ hi
    · exact absurd hmem (hfree _ hle hcase)
    · omega

theorem mem_startsList (nw : Subnet) (a : Nat) :
    a ∈ startsList nw ↔ firstUsable nw ≤ a ∧ a ≤ lastUsable nw := by
  unfold startsList
  simp only [List.mem_map, List.mem_range]
  constructor
  · rintro ⟨i, hi, rfl⟩
    omega
  · rintro ⟨h1, h2⟩
    exact ⟨a - firstUsable nw, by omega, by omega⟩

/-- Characterization of a successful `ip_range_max` result: the range lies in
the usable host addresses, avoids every excluded address, and no free
interval of usable addresses is longer. -/
theorem ip_range_max_char (nw : Subnet) (excl : List Nat) (lo hi : Nat)
    (h : ip_range_max nw excl = some (lo, hi)) :
    firstUsable nw ≤ lo ∧ lo ≤ hi ∧ hi ≤ lastUsable nw ∧
    (∀ x, lo ≤ x → x ≤ hi → x ∉ excl) ∧
    (∀ lo' hi', firstUsable nw ≤ lo' → hi' ≤ lastUsable nw →
      (∀ x, lo' ≤ x → x ≤ hi' → x ∉ excl) → hi' + 1 - lo' ≤ hi + 1 - lo) := by
  unfold ip_range_max at h
  rcases hm : ((startsList nw).filter
      (fun a => decide (0 < runLen excl (lastUsable nw) a))).argmax
      (fun a => runLen excl (lastUsable nw) a) with _ | a
  · rw [hm] at h
    cases h
  · rw [hm] at h
    have hpair := Option.some.inj h
    have hlo : a = lo := congrArg Prod.fst hpair
    have hhi : a + runLen excl (lastUsable nw) a - 1 = hi := congrArg Prod.snd hpair
    subst hlo
    have hmemf := List.argmax_mem (Option.mem_def.mpr hm)
    obtain ⟨hstarts, hpred⟩ := List.mem_filter.mp hmemf
    have hlen_pos : 0 < runLen excl (lastUsable nw) a := of_decide_eq_true hpred
    obtain ⟨hfirst, hlast⟩ := (mem_startsList nw a).mp hstarts
    have hrl : runLen excl (lastUsable nw) a =
        stopPoint excl (lastUsable nw) a - a := rfl
    have hsp_le := stopPoint_le_succ_last excl (lastUsable nw) a
    refine ⟨hfirst, by omega, by omega, ?_, ?_⟩
    · intro x hx1 hx2
      exact not_mem_of_lt_stopPoint excl (lastUsable nw) a x hx1 (by omega)
    · intro lo' hi' h1 h2 hfree
      by_cases hle : lo' ≤ hi'
      · have hlb := runLen_lower_bound excl (lastUsable nw) lo' hi' h2 hfree
        have hpos' : 0 < runLen excl (lastUsable nw) lo' := by omega
        have hmem' : lo' ∈ (startsList nw).filter
            (fun b => decide (0 < runLen excl (lastUsable nw) b)) :=
          List.mem_filter.mpr ⟨(mem_startsList nw lo').mpr ⟨h1, by omega⟩,
            decide_eq_true hpos'⟩
        have hmaxle := List.le_of_mem_argmax hmem' (Option.mem_def.mpr hm)
        omega
      · omega

/-- When exactly the gateway (the first usable address) is excluded,
`ip_range_max` shifts the low bound up by one and keeps the high bound at the
last usable address. -/
theorem ip_range_max_gateway (nw : Subnet) (h4 : 4 ≤ subnetSize nw.plen) :
    ip_range_max nw [firstUsable nw] =
      some (firstUsable nw + 1, lastUsable nw) := by
  have hfl : firstUsable nw + 1 ≤ lastUsable nw := by
    unfold firstUsable lastUsable
    omega
  have hstop : stopPoint [firstUsable nw] (lastUsable nw) (firstUsable nw + 1) =
      lastUsable nw + 1 := by
    rcases stopPoint_cases [firstUsable nw] (lastUsable nw)
        (firstUsable nw + 1) with h | ⟨hmem, hle⟩
    · exact h
    · simp only [List.mem_singleton] at hmem
      omega
  have hlen_pos : 0 < runLen [firstUsable nw] (lastUsable nw)
      (firstUsable nw + 1) := by
    unfold runLen
    rw [hstop]
    omega
  have hmemf : (firstUsable nw + 1) ∈ (startsList nw).filter
      (fun a => decide (0 < runLen [firstUsable nw] (lastUsable nw) a)) :=
    List.mem_filter.mpr ⟨(mem_startsList nw _).mpr ⟨by omega, hfl⟩,
      decide_eq_true hlen_pos⟩
  rcases hres : ip_range_max nw [firstUsable nw] with _ | ⟨lo, hi⟩
  · exfalso
    unfold ip_range_max at hres
    rcases hm : ((startsList nw).filter
        (fun a => decide (0 < runLen [firstUsable nw] (lastUsable nw) a))).argmax
        (fun a => runLen [firstUsable nw] (lastUsable nw) a) with _ | a
    · rw [List.argmax_eq_none.mp hm] at hmemf
      cases hmemf
    · rw [hm] at hres
      cases hres
  · obtain ⟨h1, h2, h3, hfree, hmax⟩ :=
      ip_range_max_char nw [firstUsable nw] lo hi hres
    have hlo_ne : lo ≠ firstUsable nw := by
      intro heq
      apply hfree lo le_rfl h2
      rw [heq]
      exact List.mem_singleton_self _
    have hmax' := hmax (firstUsable nw + 1) (lastUsable nw) (by omega) le_rfl
      (fun x hx1 hx2 => by simp only [List.mem_singleton]; omega)
    have hfin : lo = firstUsable nw + 1 ∧ hi = lastUsable nw := by omega
    rw [hfin.1, hfin.2]

theorem mem_candidates (space : Subnet) (plen : Nat) (s : Subnet) :
    s ∈ candidates space plen ↔
      ∃ i, i < 2 ^ (plen - space.plen) ∧
        s = Subnet.mk (space.base + i * subnetSize plen) plen := by
  unfold candidates
  simp only [List.mem_map, List.mem_range]
  constructor
  · rintro ⟨i, hi, rfl⟩
    exact ⟨i, hi, rfl⟩
  · rintro ⟨i, hi, rfl⟩
    exact ⟨i, hi, rfl⟩

theorem size_split (space : Subnet) (plen : Nat)
    (hp1 : space.plen ≤ plen) (hp2 : plen ≤ 32) :
    subnetSize space.plen = subnetSize plen * 2 ^ (plen - space.plen) := by
  unfold subnetSize
  rw [← pow_add]
  congr 1
  omega

theorem candidates_subset (space : Subnet) (plen : Nat)
    (hp1 : space.plen ≤ plen) (hp2 : plen ≤ 32) (s : Subnet)
    (hs : s ∈ candidates space plen) : s.subsetOf space := by
  obtain ⟨i, hi, rfl⟩ := (mem_candidates space plen s).mp hs
  unfold Subnet.subsetOf
  constructor
  · simp only []
    omega
  · simp only []
    rw [size_split space plen hp1 hp2, Nat.mul_comm (subnetSize plen)]
    have h1 : (i + 1) * subnetSize plen ≤
        2 ^ (plen - space.plen) * subnetSize plen :=
      Nat.mul_le_mul_right _ (by omega)
    rw [Nat.succ_mul] at h1
    omega

theorem mem_candidates_of_subset (space : Subnet) (plen : Nat)
    (hp1 : space.plen ≤ plen) (hp2 : plen ≤ 32)
    (hal : space.aligned) (s : Subnet) (hsal : s.aligned)
    (hplen : s.plen = plen) (hsub : s.subsetOf space) :
    s ∈ candidates space plen := by
  obtain ⟨hb1, hb2⟩ := hsub
  have hdvd_s : subnetSize plen ∣ s.base := by
    rw [← hplen]
    exact hsal
  have hdvd_sp : subnetSize plen ∣ space.base := by
    refine dvd_trans ?_ hal
    unfold subnetSize
    exact pow_dvd_pow 2 (by omega)
  obtain ⟨i, hi⟩ := Nat.dvd_sub' hdvd_s hdvd_sp
  have hbase : s.base = space.base + subnetSize plen * i := by omega
  have hszpos := subnetSize_pos plen
  have hile : i < 2 ^ (plen - space.plen) := by
    by_contra hge
    push_neg at hge
    have hmul : subnetSize plen * 2 ^ (plen - space.plen) ≤
        subnetSize plen * i := Nat.mul_le_mul_left _ hge
    rw [hplen] at hb2
    rw [size_split space plen hp1 hp2] at hb2
    omega
  have hbase' : s.base = space.base + i * subnetSize plen := by
    rw [hbase, Nat.mul_comm]
  refine (mem_candidates space plen s).mpr ⟨i, hile, ?_⟩
  have hs_eta : s = Subnet.mk s.base s.plen := rfl
  rw [hs_eta, hbase', hplen]

theorem find?_first {α : Type*} (p : α → Bool) (l : List α) (x : α)
    (h : l.find? p = some x) :
    ∃ n : Nat, l[n]? = some x ∧ p x = true ∧
      ∀ (m : Nat) (t : α), m < n → l[m]? = some t → p t = false := by
  induction l with
  | nil => cases h
  | cons y tl ih =>
    by_cases hy : p y = true
    · rw [List.find?_cons_of_pos _ hy] at h
      obtain rfl := Option.some.inj h
      exact ⟨0, by simp, hy, fun m t hm _ => absurd hm (by omega)⟩
    · rw [List.find?_cons_of_neg _ hy] at h
      obtain ⟨n, h1, h2, h3⟩ := ih h
      refine ⟨n + 1, by simpa using h1, h2, ?_⟩
      intro m t hm hget
      cases m with
      | zero =>
        simp only [List.getElem?_cons_zero] at hget
        obtain rfl := Option.some.inj hget
        simpa using hy
      | succ m' =>
        exact h3 m' t (by omega) (by simpa using hget)

theorem all_not_overlaps_iff (used : List Subnet) (c : Subnet) :
    (used.all (fun u => ! overlapsB c u) = true) ↔
      ∀ u ∈ used, ¬ ∃ a, c.memAddr a ∧ u.memAddr a := by
  rw [List.all_eq_true]
  constructor
  · intro hall u hu hex
    have h1 := hall u hu
    rw [Bool.not_eq_true'] at h1
    have h2 := (overlapsB_iff c u).mpr hex
    rw [h1] at h2
    cases h2
  · intro hdisj u hu
    rw [Bool.not_eq_true']
    cases hov : overlapsB c u with
    | false => rfl
    | true => exact absurd ((overlapsB_iff c u).mp hov) (hdisj u hu)

end netutils

set_option maxRecDepth 40000 in
/-- Claim C1: the Subnet Allocator returns a subnet contained in the reserved
space and disjoint from every used subnet — the first such candidate in the
deterministic enumeration of fixed-prefix-length subnets of the space — or
signals exhaustion when no aligned subnet of that prefix length inside the
space is disjoint from all used subnets; in particular, for
used = 10.0.0.0/24 and space = 10.0.0.0/16 in /24 steps it returns
10.0.1.0/24. -/
theorem get_unique_lxc_network_spec (used : List Subnet) (space : Subnet)
    (plen : Nat) (hp1 : space.plen ≤ plen) (hp2 : plen ≤ 32)
    (hal : space.aligned) :
    (∀ s, netutils.get_unique_lxc_network used space plen = some s →
      s.subsetOf space ∧ s.plen = plen ∧
      (∀ u ∈ used, ¬ ∃ a, s.memAddr a ∧ u.memAddr a) ∧
      (∃ n : Nat, (netutils.candidates space plen)[n]? = some s ∧
        ∀ (m : Nat) (t : Subnet), m < n →
          (netutils.candidates space plen)[m]? = some t →
          ∃ u ∈ used, ∃ a, t.memAddr a ∧ u.memAddr a)) ∧
    (netutils.get_unique_lxc_network used space plen = none →
      ∀ s : Subnet, s.aligned → s.plen = plen → s.subsetOf space →
        ∃ u ∈ used, ∃ a, s.memAddr a ∧ u.memAddr a) ∧
    (used = [Subnet.mk (10 * 2 ^ 24) 24] →
      space = Subnet.mk (10 * 2 ^ 24) 16 → plen = 24 →
      netutils.get_unique_lxc_network used space plen =
        some (Subnet.mk (10 * 2 ^ 24 + 256) 24)) := by
  refine ⟨?_, ?_, ?_⟩
  · intro s hs
    unfold netutils.get_unique_lxc_network at hs
    have hmem := List.mem_of_find?_eq_some hs
    have hps := List.find?_some hs
    obtain ⟨n, hget, hpx, hbefore⟩ := netutils.find?_first _ _ _ hs
    refine ⟨netutils.candidates_subset space plen hp1 hp2 s hmem, ?_, ?_, ?_⟩
    · obtain ⟨i, hi, rfl⟩ := (netutils.mem_candidates space plen s).mp hmem
      rfl
    · exact (netutils.all_not_overlaps_iff used s).mp hps
    · refine ⟨n, hget, ?_⟩
      intro m t hm hget'
      have hfalse := hbefore m t hm hget'
      have hnot : ¬ ∀ u ∈ used, ¬ ∃ a, t.memAddr a ∧ u.memAddr a := by
        rw [← netutils.all_not_overlaps_iff used t, hfalse]
        simp
      push_neg at hnot
      obtain ⟨u, hu, hex⟩ := hnot
      exact ⟨u, hu, hex⟩
  · intro hnone s hsal hplen hsub
    have hmem := netutils.mem_candidates_of_subset space plen hp1 hp2 hal
      s hsal hplen hsub
    have hfalse := List.find?_eq_none.mp hnone s hmem
    have hnot : ¬ ∀ u ∈ used, ¬ ∃ a, s.memAddr a ∧ u.memAddr a := by
      rw [← netutils.all_not_overlaps_iff used s]
      simpa using hfalse
    push_neg at hnot
    obtain ⟨u, hu, hex⟩ := hnot
    exact ⟨u, hu, hex⟩
  · intro h1 h2 h3
    subst h1
    subst h2
    subst h3
    decide

set_option maxRecDepth 40000 in
/-- Witness for C1 at the spec's scenario: used = 10.0.0.0/24,
space = 10.0.0.0/16, /24 steps, gives 10.0.1.0/24. -/
theorem get_unique_lxc_network_spec_witness :
    netutils.get_unique_lxc_network [Subnet.mk (10 * 2 ^ 24) 24]
      (Subnet.mk (10 * 2 ^ 24) 16) 24 =
      some (Subnet.mk (10 * 2 ^ 24 + 256) 24) :=
  ((get_unique_lxc_network_spec [Subnet.mk (10 * 2 ^ 24) 24]
      (Subnet.mk (10 * 2 ^ 24) 16) 24 (by decide) (by decide)
      ⟨10 * 2 ^ 8, by decide⟩).2.2) rfl rfl rfl

/-- Claim C2: whenever the allocator's range function returns a low/high
pair, that range is fully contained in the subnet, contains no excluded
address, and is maximal among the contiguous exclusion-free intervals of
usable host addresses; when exactly the excluded gateway is the first usable
address, the low bound is shifted up by one; in particular for subnet
10.0.1.0/24 with gateway 10.0.1.1 excluded the range is 10.0.1.2-10.0.1.254. -/
theorem ip_range_max_spec (nw : Subnet) (excl : List Nat) (lo hi : Nat)
    (h : netutils.ip_range_max nw excl = some (lo, hi)) :
    (∀ x, lo ≤ x → x ≤ hi → nw.memAddr x ∧ x ∉ excl) ∧
    netutils.firstUsable nw ≤ lo ∧ lo ≤ hi ∧ hi ≤ netutils.lastUsable nw ∧
    (∀ lo' hi', netutils.firstUsable nw ≤ lo' → hi' ≤ netutils.lastUsable nw →
      (∀ x, lo' ≤ x → x ≤ hi' → x ∉ excl) → hi' + 1 - lo' ≤ hi + 1 - lo) ∧
    (excl = [netutils.firstUsable nw] →
      lo = netutils.firstUsable nw + 1 ∧ hi = netutils.lastUsable nw) ∧
    (nw = Subnet.mk (10 * 2 ^ 24 + 256) 24 → excl = [10 * 2 ^ 24 + 257] →
      lo = 10 * 2 ^ 24 + 258 ∧ hi = 10 * 2 ^ 24 + 510) := by
  obtain ⟨h1, h2, h3, hfree, hmax⟩ := netutils.ip_range_max_char nw excl lo hi h
  have h1' := h1
  have h3' := h3
  unfold netutils.firstUsable at h1'
  unfold netutils.lastUsable at h3'
  have hgw : excl = [netutils.firstUsable nw] →
      lo = netutils.firstUsable nw + 1 ∧ hi = netutils.lastUsable nw := by
    intro hexcl
    subst hexcl
    have hlo_ne : lo ≠ netutils.firstUsable nw := by
      intro heq
      apply hfree lo le_rfl h2
      rw [heq]
      exact List.mem_singleton_self _
    have hmax' := hmax (netutils.firstUsable nw + 1) (netutils.lastUsable nw)
      (by omega) le_rfl
      (fun x hx1 hx2 => by simp only [List.mem_singleton]; omega)
    omega
  refine ⟨?_, h1, h2, h3, hmax, hgw, ?_⟩
  · intro x hx1 hx2
    refine ⟨?_, hfree x hx1 hx2⟩
    unfold Subnet.memAddr
    omega
  · intro hnw hexcl
    have hres := hgw (by rw [hexcl, hnw]; rfl)
    rw [hnw] at hres
    have e1 : netutils.firstUsable (Subnet.mk (10 * 2 ^ 24 + 256) 24) =
        10 * 2 ^ 24 + 257 := rfl
    have e2 : netutils.lastUsable (Subnet.mk (10 * 2 ^ 24 + 256) 24) =
        10 * 2 ^ 24 + 510 := rfl
    rw [e1, e2] at hres
    omega

set_option maxRecDepth 40000 in
/-- Witness for C2 at the spec's scenario: in subnet 10.0.1.0/24 with
gateway 10.0.1.1 excluded, address 10.0.1.44 lies in the computed range, is
in the subnet and is not excluded. -/
theorem ip_range_max_spec_witness :
    (Subnet.mk (10 * 2 ^ 24 + 256) 24).memAddr (10 * 2 ^ 24 + 300) ∧
    (10 * 2 ^ 24 + 300) ∉ [10 * 2 ^ 24 + 257] :=
  (ip_range_max_spec (Subnet.mk (10 * 2 ^ 24 + 256) 24) [10 * 2 ^ 24 + 257]
      (10 * 2 ^ 24 + 258) (10 * 2 ^ 24 + 510) (by decide)).1
    (10 * 2 ^ 24 + 300) (by decide) (by decide)

/-- Claim C6: `write_lxc_net_config` allocates a fresh non-colliding subnet
(the allocator's result), computes the gateway as the first usable host
address of that subnet, the netmask, and a dynamic-address range excluding
the gateway, renders the network-config template with these values, writes
the rendered text to the fixed relative path rootfs/etc/default/lxc-net
under the container's filesystem root, and returns the allocated subnet. -/
theorem write_lxc_net_config_spec (name : String) (used : List Subnet)
    (space : Subnet) (plen : Nat) (render : container.RenderParts → String)
    (nw : Subnet)
    (halloc : netutils.get_unique_lxc_network used space plen = some nw)
    (hplen : nw.plen ≤ 30) :
    container.write_lxc_net_config name used space plen render =
      some { filename := container.osPathJoin (container.abspath name)
               "rootfs/etc/default/lxc-net",
             contents := render
               { addr := container.ipToString (netutils.firstUsable nw),
                 netmask := container.netmaskString nw.plen,
                 network := container.subnetString nw,
                 dhcp_range :=
                   container.ipToString (netutils.firstUsable nw + 1) ++
                     "," ++ container.ipToString (netutils.lastUsable nw) },
             network := nw } := by
  have h4 : 4 ≤ subnetSize nw.plen := by
    have h22 : 2 ^ 2 ≤ 2 ^ (32 - nw.plen) :=
      Nat.pow_le_pow_right (by omega) (by omega)
    unfold subnetSize
    omega
  have hgw : netutils.ip_range_max nw [nw.base + 1] =
      some (nw.base + 1 + 1, netutils.lastUsable nw) :=
    netutils.ip_range_max_gateway nw h4
  simp only [container.write_lxc_net_config, halloc, hgw]
  rfl

set_option maxRecDepth 40000 in
/-- Witness for C6 at a concrete input: container "uoi-bootstrap", used =
10.0.0.0/24, space = 10.0.0.0/16 in /24 steps, and a rendering function that
joins the four substitution values with a bar. -/
theorem write_lxc_net_config_spec_witness :
    container.write_lxc_net_config "uoi-bootstrap"
      [Subnet.mk (10 * 2 ^ 24) 24] (Subnet.mk (10 * 2 ^ 24) 16) 24
      (fun p => p.addr ++ "|" ++ p.netmask ++ "|" ++ p.network ++ "|" ++
        p.dhcp_range) =
      some { filename := "/var/lib/lxc/uoi-bootstrap/rootfs/etc/default/lxc-net",
             contents := "10.0.1.1|255.255.255.0|10.0.1.0/24|10.0.1.2,10.0.1.254",
             network := Subnet.mk (10 * 2 ^ 24 + 256) 24 } := by
  rw [write_lxc_net_config_spec "uoi-bootstrap" [Subnet.mk (10 * 2 ^ 24) 24]
    (Subnet.mk (10 * 2 ^ 24) 16) 24 _ (Subnet.mk (10 * 2 ^ 24 + 256) 24)
    (by decide) (by decide)]
  rfl

/-- Witness for C7 at a concrete input: a route command failing with status 2
and output "boom" yields the route-failure error carrying that output. -/
theorem set_static_route_spec_witness :
    container.set_static_route "10.0.4.0/24" (.ips ["10.0.3.5"])
      (fun _ => (2, "boom")) =
      .routeExc ("Could not add static route for " ++ "10.0.4.0/24" ++
        " network: " ++ "boom") :=
  ((set_static_route_spec "10.0.4.0/24" "10.0.3.5" []
      (fun _ => (2, "boom"))).2 2 "boom" rfl).1 (by decide)

end Uoilib
